import Mathlib

/-!
Shallow embedding of the quickspell backend core (Rust sources under
`src-tauri/src`): the ranking engine (`core/search.rs`), the navigation
state machine (`core/state.rs`), the item wire format (`api/types.rs`)
and the template context builder (`core/template.rs`).

External crates (the `nucleo_matcher` scoring engine, `handlebars`
template rendering, process spawning) are modelled as explicit function
parameters at the exact call sites where the Rust code invokes them;
everything written in this repository is translated directly.

Rust `&str` values are modelled as `String` / `List Char`; byte positions
inside haystacks become character positions (all delimiters and quotes
involved are ASCII, so the two index spaces are order-isomorphic and agree
on every ASCII input). Machine integers (`u32`, `u64`, `usize`) are
modelled as `Nat`; the one wrapping operation (`wrapping_add` on the
`u64` frame counter) carries an explicit `% 2 ^ 64`.
-/

namespace Quickspell

/-! ## Data model (`api/types.rs`) -/

/-- Embedding of `Item` (`api/types.rs`): the atomic three-field search candidate. -/
structure Item where
  item_type : String
  name : String
  data : String
deriving DecidableEq, Repr

/-- Embedding of `SearchScheme` (`api/types.rs`). -/
inductive SearchScheme where
  | plain
  | path
deriving DecidableEq, Repr

/-- Embedding of `SearchMode` (`api/types.rs`). -/
inductive SearchMode where
  | fuzzy
  | exact
deriving DecidableEq, Repr

/-- Embedding of `SearchConfig` (`api/types.rs`): `field` is 1-indexed. -/
structure SearchConfig where
  field : Nat
  scheme : SearchScheme
  mode : SearchMode
deriving DecidableEq, Repr

/-- Embedding of `Action` (`api/types.rs`): tagged union of command and push-spell
actions; `condition` is the `if` template, `payload` is `cmd` / `spell`. -/
inductive Action where
  | cmd (name : Option String) (condition : Option String) (cmd : String)
  | spell (name : Option String) (condition : Option String) (spell : String)
deriving DecidableEq, Repr

/-- Embedding of `Spell` (`api/types.rs`): one loaded definition. -/
structure Spell where
  name : String
  id : String
  enabled : Bool
  provider : String
  «alias» : Option String
  is_streaming : Option Bool
  preview : Option String
  search : Option SearchConfig
  actions : List Action
deriving DecidableEq, Repr

/-- Embedding of `AppStatus` (`api/types.rs`). -/
inductive AppStatus where
  | notStarted
  | booting
  | loading
  | ready
  | error
deriving DecidableEq, Repr

/-- Embedding of `Frame` (`api/types.rs`): one entry of the navigation stack.
The stack is a Rust `Vec` with the top at the end, kept as a `List`
with the top at the end (`getLast?`). -/
structure Frame where
  id : Nat
  spell_id : String
  query : String
  all_items : List Item
  filtered_items : List Item
  is_filtering : Bool
  selected_idx : Nat
deriving DecidableEq, Repr

/-- Embedding of `AppInner` (`api/types.rs`): the state behind the RwLock. The
`HashMap<String, Spell>` keyed by unique ids is modelled as an
association list consulted with `lookup`. -/
structure AppInner where
  status : AppStatus
  spells : List (String × Spell)
  stack : List Frame
  next_frame_id : Nat
deriving DecidableEq, Repr

/-- Embedding of `STARTING_SPELL_ID` (`api/types.rs`). -/
def STARTING_SPELL_ID : String := "quickspell"

/-! ## Item wire format (`api/types.rs`, `Item::from_line` / `Item::raw`)

Rust `line.split('\t')` yields the (always at least one) tab-separated
fields of the line; `splitTab` is that iterator, materialised. -/

/-- Embedding of `str::split('\t')` on the characters of a line: the list of
tab-separated fields (the empty line yields one empty field, exactly as
in Rust). -/
def splitTab : List Char → List (List Char)
  | [] => [[]]
  | c :: cs =>
    if c = '\t' then [] :: splitTab cs
    else
      match splitTab cs with
      | f :: fs => (c :: f) :: fs
      | [] => [[c]]

/-- The inverse of `splitTab`: re-join fields with single tabs (used to
reason about which lines a field list came from). -/
def joinTab : List (List Char) → List Char
  | [] => []
  | [f] => f
  | f :: g :: rest => f ++ '\t' :: joinTab (g :: rest)

/-- Embedding of `Item::from_line`: take the first three tab-separated fields,
ignoring any further fields; fewer than three fields is a parse failure. -/
def Item.from_line (line : String) : Option Item :=
  match splitTab line.data with
  | t :: n :: d :: _ => some ⟨⟨t⟩, ⟨n⟩, ⟨d⟩⟩
  | _ => none

/-- Embedding of `Item::raw`: the canonical tab-joined wire form. -/
def Item.raw (i : Item) : String :=
  i.item_type ++ "\t" ++ i.name ++ "\t" ++ i.data

/-- Embedding of `Item::field` (`api/types.rs`): 0-indexed field access with the
`name` field as fallback. -/
def Item.field (i : Item) (idx : Nat) : String :=
  match idx with
  | 0 => i.item_type
  | 1 => i.name
  | 2 => i.data
  | _ => i.name

/-! ## Ranking engine (`core/search.rs`)

The `nucleo_matcher` crate is external: a compiled pattern's
`score(haystack)` call is abstracted as a parameter
`score : AtomKind → Bool → String → List Char → Option Nat`
(the atom kind chosen from the mode, whether the path-tuned matcher
configuration is selected, the query the pattern was built from, and the
haystack; `none` means the pattern rejects the haystack). Everything the
repository itself computes — field extraction, path metrics, the
composite rank key and the sort — is translated directly. -/

/-- Embedding of `nucleo_matcher::pattern::AtomKind`, restricted to the two values
`core/search.rs` selects from `SearchMode`. -/
inductive AtomKind where
  | fuzzy
  | substring
deriving DecidableEq, Repr

/-- The abstract external matcher: `Pattern::new(query, …, atomKind)`
`.score(haystack, matcher(usePath))`. -/
def MatcherScore : Type :=
  AtomKind → Bool → String → List Char → Option Nat

/-- Embedding of `Rank` (`core/search.rs`): packed composite sort key plus original
input index. -/
structure Rank where
  points : Nat
  index : Nat
deriving DecidableEq, Repr

/-- Embedding of `Rank::new` (`core/search.rs`): saturate each metric to 16 bits,
invert the score, and pack score-inverse / pathname distance / haystack
length into disjoint 16-bit lanes of a 64-bit key (never exceeds
`2 ^ 64`, so plain `Nat` arithmetic is exact). -/
def Rank.new (score pathname length index : Nat) : Rank :=
  let score_inv := 65535 - min score 65535
  let pathname' := min pathname 65535
  let length' := min length 65535
  { points := (score_inv <<< 48) ||| (pathname' <<< 32) ||| (length' <<< 16)
    index }

/-- Embedding of `cmp_rank` (`core/search.rs`): key order, then input index. -/
def cmp_rank (a b : Rank) : Ordering :=
  match compare a.points b.points with
  | Ordering.eq => compare a.index b.index
  | other => other

/-- Embedding of `path_metrics` (`core/search.rs`): haystack length together with
one-past-the-last path separator, a trailing separator being ignored. -/
def last_delim_pos : List Char → Option Nat
  | [] => none
  | c :: rest =>
    match last_delim_pos rest with
    | some p => some (p + 1)
    | none => if c = '/' ∨ c = '\\' then some 1 else none

/-- Whether a character is a path separator (`core/search.rs` checks
`b'/'` and `b'\\'`). -/
def is_path_delim (c : Char) : Bool :=
  c = '/' ∨ c = '\\'

/-- Embedding of `path_metrics` (`core/search.rs`). -/
def path_metrics (haystack : List Char) : Nat × Option Nat :=
  let last_delim := last_delim_pos haystack
  let last_delim :=
    match haystack.getLast? with
    | some c => if is_path_delim c then last_delim_pos haystack.dropLast else last_delim
    | none => last_delim
  (haystack.length, last_delim)

/-- Embedding of `pathname_distance` (`core/search.rs`): zero (or the offset) when the
first match position falls at or after the last separator, else the
saturated `u16::MAX` penalty. -/
def pathname_distance (last_delim : Option Nat) (min_begin : Nat) : Nat :=
  match last_delim with
  | some last => if last ≤ min_begin then min_begin - last else 65535
  | none => 65535

/-- Embedding of `ascii_lower` (`core/search.rs`). -/
def ascii_lower (c : Char) : Char :=
  if 'A' ≤ c ∧ c ≤ 'Z' then Char.ofNat (c.toNat + 32) else c

/-- First index at which `pat` occurs as a contiguous sublist of `hay`
(`hay.windows(pat.len()).position(..)` in the source's ASCII fast path;
the colder non-ASCII branch computes the same first occurrence through
`str::find`). -/
def substring_find (hay pat : List Char) : Option Nat :=
  match hay with
  | [] => if pat = [] then some 0 else none
  | c :: rest =>
    if pat.isPrefixOf (c :: rest) then some 0
    else (substring_find rest pat).map (· + 1)

/-- Embedding of `basename_substring_start` (`core/search.rs`): the first
case-insensitive occurrence of the lowercased query at or after the last
path separator (both source branches compute this same occurrence). -/
def basename_substring_start (haystack : List Char) (query_lower : List Char)
    (last_delim : Option Nat) : Option Nat :=
  let start := match last_delim with | some p => p | none => 0
  (substring_find ((haystack.drop start).map ascii_lower) query_lower).map (start + ·)

/-- The rank-and-candidate pair computed for one input item in
`filter_items` (`core/search.rs`): field extraction, external score,
path metrics, packed rank. `none` when the pattern rejects. The engine
is generic over the candidate type through `line`, the raw tab-joined
text of a candidate (`id` for the `&[String]` entry point of
`core/search.rs`; `Item.raw` when `core/state.rs` hands the current
frame's items over). -/
def rank_candidate (line : α → String) (score : MatcherScore) (query : String)
    (config : SearchConfig) (idx : Nat) (item : α) : Option (Rank × α) :=
  let atom_kind :=
    match config.mode with
    | SearchMode.exact => AtomKind.substring
    | SearchMode.fuzzy => AtomKind.fuzzy
  let query_lower := query.data.map ascii_lower
  let field_idx := config.field - 1
  let use_path := config.scheme = SearchScheme.path
  let haystack := ((splitTab (line item).data).get? field_idx).getD (line item).data
  match score atom_kind use_path query haystack with
  | none => none
  | some sc =>
    let lp :=
      if use_path then
        let m := path_metrics haystack
        let b := (basename_substring_start haystack query_lower m.2).getD 0
        (m.1, pathname_distance m.2 b)
      else
        (haystack.length, 0)
    some (Rank.new sc lp.2 lp.1 idx, item)

/-- The comparator `filter_items` sorts by, as a binary relation
(`cmp_rank(a, b) != Greater`, i.e. `a ≤ b`). -/
def rank_le (a b : Rank × α) : Prop :=
  cmp_rank a.1 b.1 ≠ Ordering.gt

instance : DecidableRel (rank_le (α := α)) := fun a b =>
  inferInstanceAs (Decidable (cmp_rank a.1 b.1 ≠ Ordering.gt))

/-- The surviving candidates of `filter_items` with their ranks, in
input order (`rayon`'s indexed `par_iter … collect` preserves input
order, so it equals this sequential map-and-drop-rejects). -/
def ranked_candidates (line : α → String) (score : MatcherScore) (items : List α)
    (query : String) (config : SearchConfig) : List (Rank × α) :=
  (items.enum.map (fun p => rank_candidate line score query config p.1 p.2)).reduceOption

/-- The survivors sorted by `cmp_rank` ascending. Rust's `sort_by` is a
stable comparison sort; `cmp_rank` never returns `Equal` on two distinct
entries here (their input indices differ), so every comparison sort —
in particular stable insertion sort — produces this exact list. -/
def sorted_candidates (line : α → String) (score : MatcherScore) (items : List α)
    (query : String) (config : SearchConfig) : List (Rank × α) :=
  (ranked_candidates line score items query config).insertionSort rank_le

/-- Embedding of `filter_items` (`core/search.rs`): empty query is the identity;
otherwise score every candidate, drop rejects, sort by the composite
rank key and return the candidates. -/
def Search.filter_items (score : MatcherScore) (items : List String)
    (query : String) (config : SearchConfig) : List String :=
  if query = "" then items
  else (sorted_candidates id score items query config).map (·.2)

/-! ## Navigation state machine (`core/state.rs`)

The Rust methods mutate `AppInner` behind a lock; each is embedded as a
pure function `AppInner → …`. `filter_items` releases the lock between
its read phase and its write phase, so it is embedded with the state at
read time and the state at write time as two separate arguments. -/

/-- Embedding of `EscapeResult` (`core/state.rs`). -/
inductive EscapeResult where
  | clearedQuery
  | poppedFrame
  | noop
deriving DecidableEq, Repr

/-- Apply `f` to the last element of a list (`stack.last_mut()` when the
borrow is used to mutate the top frame); the empty list is untouched. -/
def modifyLast (f : α → α) : List α → List α
  | [] => []
  | [x] => [f x]
  | x :: y :: xs => x :: modifyLast f (y :: xs)

/-- Embedding of `clamp_selection` (`core/state.rs`). -/
def clamp_selection (frame : Frame) : Frame :=
  if frame.filtered_items.isEmpty then
    { frame with selected_idx := 0 }
  else
    { frame with selected_idx := min frame.selected_idx (frame.filtered_items.length - 1) }

/-- Embedding of `new_frame` (`core/state.rs`): allocate the next frame id
(`wrapping_add(1)` on `u64`) and a fresh empty frame. -/
def new_frame (inner : AppInner) (spell_id : String) : Frame × AppInner :=
  let id := inner.next_frame_id
  (⟨id, spell_id, "", [], [], false, 0⟩,
   { inner with next_frame_id := (inner.next_frame_id + 1) % 2 ^ 64 })

/-- Embedding of `AppState::new` (`core/state.rs`). -/
def AppState.new : AppInner :=
  ⟨AppStatus.notStarted, [], [], 0⟩

/-- Embedding of `AppState::begin_loading_with_spells` (`core/state.rs`). -/
def begin_loading_with_spells (inner : AppInner) (spells : List (String × Spell)) :
    Except String AppInner :=
  if inner.status ≠ AppStatus.notStarted then
    Except.error "already started"
  else
    let inner := { inner with
      status := AppStatus.booting
      spells := spells }
    let inner := { inner with status := AppStatus.loading }
    let fi := new_frame inner STARTING_SPELL_ID
    Except.ok { fi.2 with stack := [fi.1] }

/-- Embedding of `is_current_frame` (`core/state.rs`). -/
def is_current_frame (inner : AppInner) (frame_uid : Nat) : Bool :=
  match inner.stack.getLast? with
  | some frame => frame.id = frame_uid
  | none => false

/-- The write-back half of `AppState::finish_loading_with_items`
(`core/state.rs`): the provider subprocess that produced `items` is
external; `frame_uid` is the id of the frame the load was started for.
Stale results (top-of-stack id changed) are discarded. -/
def finish_loading_write (inner : AppInner) (items : List Item) (frame_uid : Nat) :
    AppInner :=
  if is_current_frame inner frame_uid then
    { inner with
      stack := modifyLast
        (fun f => { f with all_items := items, filtered_items := items }) inner.stack
      status := AppStatus.ready }
  else
    inner

/-- Embedding of `AppState::set_query` (`core/state.rs`). -/
def set_query (inner : AppInner) (query : String) : AppInner :=
  { inner with
    stack := modifyLast
      (fun f => { f with query := query, selected_idx := 0, is_filtering := true })
      inner.stack }

/-- The compute phase of `AppState::filter_items` (`core/state.rs`),
performed off the lock: rank the frame's items (the engine consumes an
item's raw tab-joined line), then truncate to at most 100. -/
def compute_filtered (score : MatcherScore) (all_items : List Item)
    (query : String) (config : Option SearchConfig) : List Item :=
  let filtered :=
    if query = "" then all_items
    else
      match config with
      | some cfg => (sorted_candidates Item.raw score all_items query cfg).map (·.2)
      | none => all_items
  if filtered.length > 100 then filtered.take 100 else filtered

/-- The write phase of `AppState::filter_items` (`core/state.rs`): apply
the computed result only when the top frame's stored query still equals
the query the result was computed against; an applied write also clamps
the selection and clears `is_filtering`. Returns the new state and the
`applied` flag. -/
def filter_items_write (inner : AppInner) (query : String) (filtered : List Item) :
    AppInner × Bool :=
  match inner.stack.getLast? with
  | some frame =>
    if frame.query = query then
      ({ inner with
         stack := modifyLast
           (fun f =>
             { clamp_selection { f with filtered_items := filtered } with
               is_filtering := false })
           inner.stack },
       true)
    else (inner, false)
  | none => (inner, false)

/-- Embedding of `AppState::filter_items` (`core/state.rs`) as a whole: read the top
frame's items, query and owning spell's search config from the state at
read time (`read_inner`), compute off the lock, then write back into the
state at write time (`write_inner`), which interleaved operations may
have changed. An empty stack at read time returns `false` without
writing. -/
def filter_items_op (score : MatcherScore) (read_inner write_inner : AppInner) :
    AppInner × Bool :=
  match read_inner.stack.getLast? with
  | none => (write_inner, false)
  | some frame =>
    let config := ((read_inner.spells.lookup frame.spell_id).map Spell.search).join
    let filtered := compute_filtered score frame.all_items frame.query config
    filter_items_write write_inner frame.query filtered

/-- Embedding of `AppState::set_selection_delta` (`core/state.rs`). -/
def set_selection_delta (inner : AppInner) (delta : Int) : AppInner × Bool :=
  match inner.stack.getLast? with
  | none => (inner, false)
  | some frame =>
    let len := frame.filtered_items.length
    if len = 0 then
      ({ inner with stack := modifyLast (fun f => { f with selected_idx := 0 }) inner.stack },
       true)
    else
      let current := min frame.selected_idx (len - 1)
      let next := max 0 (min ((current : Int) + delta) ((len : Int) - 1))
      ({ inner with
         stack := modifyLast (fun f => { f with selected_idx := next.toNat }) inner.stack },
       true)

/-- The pop stage of `AppState::handle_escape` (`core/state.rs`): pop
the top frame when more than one remains, clamp the new top's selection
and return to `Ready`; else no-op. -/
def handle_escape_pop (inner : AppInner) : AppInner × EscapeResult :=
  if inner.stack.length > 1 then
    ({ inner with
       stack := modifyLast clamp_selection inner.stack.dropLast
       status := AppStatus.ready },
     EscapeResult.poppedFrame)
  else (inner, EscapeResult.noop)

/-- Embedding of `AppState::handle_escape` (`core/state.rs`): clear a non-empty query
on the top frame (without popping), else fall through to the pop stage. -/
def handle_escape (inner : AppInner) : AppInner × EscapeResult :=
  match inner.stack.getLast? with
  | some frame =>
    if frame.query ≠ "" then
      ({ inner with
         stack := modifyLast
           (fun f => { f with
             query := ""
             selected_idx := 0
             filtered_items := f.all_items
             is_filtering := false })
           inner.stack },
       EscapeResult.clearedQuery)
    else handle_escape_pop inner
  | none => handle_escape_pop inner

/-- Embedding of `append_items_for_frame` (`core/state.rs`): one streaming flush;
applied only when the target frame is still the top of the stack, with
no truncation of `filtered_items`. -/
def append_items_for_frame (inner : AppInner) (frame_uid : Nat) (new_items : List Item) :
    AppInner :=
  match inner.stack.getLast? with
  | some frame =>
    if frame.id = frame_uid then
      { inner with
        stack := modifyLast
          (fun f => { f with
            all_items := f.all_items ++ new_items
            filtered_items := f.filtered_items ++ new_items })
          inner.stack }
    else inner
  | none => inner

/-! ## Template resolver context (`core/template.rs`)

Handlebars rendering itself is an external crate; the context the
repository builds for it (`build_context`) is embedded, with the
`HashMap<String, FrameContext>` modelled as the function from keys to
entries that successive inserts produce. -/

/-- Embedding of `SelectionContext` (`core/template.rs`). -/
structure SelectionContext where
  kind : String
  label : String
  data : String
  fields : List String
  raw : String
deriving DecidableEq, Repr

/-- Embedding of `SelectionContext::from_item` (`core/template.rs`). -/
def SelectionContext.from_item : Option Item → SelectionContext
  | some value =>
    ⟨value.item_type, value.name, value.data,
     [value.item_type, value.name, value.data], value.raw⟩
  | none => ⟨"", "", "", [], ""⟩

/-- Embedding of `FrameContext` (`core/template.rs`). -/
structure FrameContext where
  selection : SelectionContext
  query : String
  spell_id : String
deriving DecidableEq, Repr

/-- Embedding of `selected_item` (`core/template.rs`): the frame's selected filtered
item with the index clamped, or none when nothing is filtered. -/
def selected_item (frame : Frame) : Option Item :=
  if frame.filtered_items.isEmpty then none
  else frame.filtered_items.get? (min frame.selected_idx (frame.filtered_items.length - 1))

/-- The `FrameContext` built for one frame inside `build_context`
(`core/template.rs`). -/
def frame_context (frame : Frame) : FrameContext :=
  ⟨SelectionContext.from_item (selected_item frame), frame.query, frame.spell_id⟩

/-- One `ctx.insert(frame.spell_id.clone(), FrameContext { … })` step of
`build_context` (`core/template.rs`): a map insert that overwrites any
earlier entry under the same key. -/
def insert_frame_context (ctx : String → Option FrameContext) (frame : Frame) :
    String → Option FrameContext :=
  fun k => if k = frame.spell_id then some (frame_context frame) else ctx k

/-- Embedding of `build_context` (`core/template.rs`): iterate the stack from bottom
to top, inserting each frame's context under its definition id — a later
(higher) frame with the same id overwrites the earlier entry. -/
def build_context (frames : List Frame) : String → Option FrameContext :=
  frames.foldl insert_frame_context (fun _ => none)

/-! ## Action dispatcher (`core/state.rs`, `invoke_action`)

`template::resolve_template` runs the external handlebars engine over
the context of the previous section; it is abstracted as a parameter
`render : String → List Frame → Except String String`. Running a `Cmd`
action's subprocess (tokenization, spawn, exit status) happens outside
the navigation state and never mutates it; the scan hands the rendered
command text over and stops. -/

/-- The abstract external template renderer
(`template::resolve_template`, whose errors are render errors). -/
def Renderer : Type :=
  String → List Frame → Except String String

/-- What a successful `invoke_action` did. -/
inductive InvokeOutcome where
  | pushedSpell (target : String)
  | ranCmd (rendered : String)
deriving DecidableEq, Repr

/-- Embedding of `action_name` (`core/state.rs`). -/
def action_name : Action → Option String
  | Action.cmd name _ _ => name
  | Action.spell name _ _ => name

/-- Embedding of `action_condition` (`core/state.rs`). -/
def action_condition : Action → Option String
  | Action.cmd _ condition _ => condition
  | Action.spell _ condition _ => condition

/-- Embedding of `str::trim`: drop whitespace from both ends of a string
(`Char.isWhitespace` covers the ASCII whitespace the conditions and
rendered ids here can contain; Rust trims by the same predicate on
Unicode input). -/
def trim_str (s : String) : String :=
  ⟨((s.data.dropWhile Char.isWhitespace).reverse.dropWhile Char.isWhitespace).reverse⟩

/-- Embedding of `str::split_once` on character lists: split at the first occurrence
of `sep`, or `none` when `sep` does not occur. -/
def split_once : List Char → List Char → Option (List Char × List Char)
  | [], sep => if sep = [] then some ([], []) else none
  | c :: cs, sep =>
    if sep.isPrefixOf (c :: cs) then some ([], (c :: cs).drop sep.length)
    else (split_once cs sep).map (fun p => (c :: p.1, p.2))

/-- Embedding of `strip_matching_quotes` (`core/state.rs`). -/
def strip_matching_quotes (value : List Char) : List Char :=
  if 2 ≤ value.length then
    if (value.head?.getD ' ' = '"' ∧ value.getLast?.getD ' ' = '"')
        ∨ (value.head?.getD ' ' = '\'' ∧ value.getLast?.getD ' ' = '\'') then
      value.drop 1 |>.dropLast
    else value
  else value

/-- Embedding of `normalize_condition_value` (`core/state.rs`). -/
def normalize_condition_value (value : List Char) : List Char :=
  strip_matching_quotes (trim_str (String.mk value)).data

/-- Embedding of `condition_passes` (`core/state.rs`): render the `if` template, then
interpret the result — `==`/`!=` comparisons of normalized sides,
boolean literal spellings, else non-empty-is-truthy. -/
def condition_passes (render : Renderer) (condition : Option String)
    (frames : List Frame) : Except String Bool :=
  match condition with
  | none => Except.ok true
  | some raw =>
    (render raw frames).map (fun rendered =>
      let text := (trim_str rendered).data
      if text = [] then true
      else
        match split_once text "==".data with
        | some p => normalize_condition_value p.1 = normalize_condition_value p.2
        | none =>
          match split_once text "!=".data with
          | some p => normalize_condition_value p.1 ≠ normalize_condition_value p.2
          | none =>
            match String.mk (text.map ascii_lower) with
            | "true" | "1" | "yes" | "y" => true
            | "false" | "0" | "no" | "n" => false
            | _ => text ≠ [])

/-- The action scan loop of `AppState::invoke_action` (`core/state.rs`):
declaration order, first action whose name (or the `MAIN` sentinel)
matches the label and whose condition passes wins; a failed condition
skips to the next candidate; rendering errors abort. A `Spell` action
validates the rendered target against the loaded definitions before
atomically pushing a new frame and entering `Loading`; on any error the
state is returned untouched. -/
def run_action (render : Renderer) (frames : List Frame) (inner : AppInner) :
    Action → AppInner × Except String InvokeOutcome
  | Action.spell _ _ spell =>
    match render spell frames with
    | Except.error e => (inner, Except.error e)
    | Except.ok rendered_spell =>
      let target := trim_str rendered_spell
      if target = "" then
        (inner, Except.error "resolved spell id is empty")
      else if (inner.spells.lookup target).isNone then
        (inner, Except.error ("spell " ++ target ++ " not found"))
      else
        let fi := new_frame inner target
        ({ fi.2 with
           stack := fi.2.stack ++ [fi.1]
           status := AppStatus.loading },
         Except.ok (InvokeOutcome.pushedSpell target))
  | Action.cmd _ _ cmd =>
    match render cmd frames with
    | Except.error e => (inner, Except.error e)
    | Except.ok rendered_cmd =>
      if trim_str rendered_cmd = "" then
        (inner, Except.error "resolved command is empty")
      else
        (inner, Except.ok (InvokeOutcome.ranCmd rendered_cmd))

def scan_actions (render : Renderer) (frames : List Frame) (label : String)
    (inner : AppInner) : List Action → AppInner × Except String InvokeOutcome
  | [] => (inner, Except.error ("no matching action for label " ++ label))
  | action :: rest =>
    if (action_name action).getD "MAIN" ≠ label then
      scan_actions render frames label inner rest
    else
      match condition_passes render (action_condition action) frames with
      | Except.error e => (inner, Except.error e)
      | Except.ok false => scan_actions render frames label inner rest
      | Except.ok true => run_action render frames inner action

/-- Embedding of `AppState::invoke_action` (`core/state.rs`): snapshot the stack and
the current spell's actions, then scan. -/
def invoke_action (render : Renderer) (inner : AppInner) (label : String) :
    AppInner × Except String InvokeOutcome :=
  match inner.stack.getLast?.bind (fun frame => inner.spells.lookup frame.spell_id) with
  | none => (inner, Except.error "no active spell")
  | some spell => scan_actions render inner.stack label inner spell.actions

/-! ## Helper lemmas -/

theorem modifyLast_cons_eq (f : α → α) (y : α) (ys : List α) :
    ∃ z zs, modifyLast f (y :: ys) = z :: zs := by
  cases ys with
  | nil => exact ⟨f y, [], rfl⟩
  | cons a as => exact ⟨y, modifyLast f (a :: as), rfl⟩

theorem modifyLast_getLast? (f : α → α) (l : List α) :
    (modifyLast f l).getLast? = l.getLast?.map f := by
  induction l with
  | nil => rfl
  | cons x xs ih =>
    cases xs with
    | nil => rfl
    | cons y ys =>
      obtain ⟨z, zs, hz⟩ := modifyLast_cons_eq f y ys
      rw [modifyLast, List.getLast?_cons_cons, hz, List.getLast?_cons_cons, ← hz, ih]

theorem modifyLast_length (f : α → α) (l : List α) :
    (modifyLast f l).length = l.length := by
  induction l with
  | nil => rfl
  | cons x xs ih =>
    cases xs with
    | nil => rfl
    | cons y ys =>
      rw [modifyLast, List.length_cons, ih]
      simp

theorem modifyLast_dropLast (f : α → α) (l : List α) :
    (modifyLast f l).dropLast = l.dropLast := by
  induction l with
  | nil => rfl
  | cons x xs ih =>
    cases xs with
    | nil => rfl
    | cons y ys =>
      obtain ⟨z, zs, hz⟩ := modifyLast_cons_eq f y ys
      rw [modifyLast, List.dropLast_cons₂, hz, List.dropLast_cons₂, ← hz, ih]

/-- Decoding the packed 64-bit rank key: the three saturated 16-bit
lanes sit at bit offsets 48, 32 and 16, and the bitwise ors of the
disjoint lanes are plain sums. -/
theorem Rank.points_decode (s p l i : Nat) :
    (Rank.new s p l i).points =
      (65535 - min s 65535) * 2 ^ 48 + min p 65535 * 2 ^ 32 + min l 65535 * 2 ^ 16 := by
  show ((65535 - min s 65535) <<< 48 ||| (min p 65535) <<< 32 ||| (min l 65535) <<< 16) = _
  have hp : min p 65535 ≤ 65535 := Nat.min_le_right ..
  have hl : min l 65535 ≤ 65535 := Nat.min_le_right ..
  have h1 : (min p 65535) * 2 ^ 32 < 2 ^ 48 :=
    Nat.lt_of_le_of_lt (Nat.mul_le_mul_right _ hp) (by norm_num)
  have h2 : (min l 65535) * 2 ^ 16 < 2 ^ 32 :=
    Nat.lt_of_le_of_lt (Nat.mul_le_mul_right _ hl) (by norm_num)
  rw [Nat.shiftLeft_eq, Nat.shiftLeft_eq, Nat.shiftLeft_eq]
  calc (65535 - min s 65535) * 2 ^ 48 ||| min p 65535 * 2 ^ 32 ||| min l 65535 * 2 ^ 16
      = 2 ^ 48 * (65535 - min s 65535) ||| min p 65535 * 2 ^ 32 ||| min l 65535 * 2 ^ 16 := by
        rw [Nat.mul_comm]
    _ = (2 ^ 48 * (65535 - min s 65535) + min p 65535 * 2 ^ 32) ||| min l 65535 * 2 ^ 16 := by
        rw [Nat.mul_add_lt_is_or h1]
    _ = 2 ^ 32 * (2 ^ 16 * (65535 - min s 65535) + min p 65535) ||| min l 65535 * 2 ^ 16 := by
        ring_nf
    _ = 2 ^ 32 * (2 ^ 16 * (65535 - min s 65535) + min p 65535) + min l 65535 * 2 ^ 16 := by
        rw [Nat.mul_add_lt_is_or h2]
    _ = _ := by ring

theorem cmp_rank_eq_lt_iff (a b : Rank) :
    cmp_rank a b = Ordering.lt ↔
      a.points < b.points ∨ (a.points = b.points ∧ a.index < b.index) := by
  unfold cmp_rank
  rcases Nat.lt_trichotomy a.points b.points with h | h | h
  · simp [Nat.compare_eq_lt.mpr h, h]
  · simp [h, Nat.compare_eq_eq.mpr rfl, Nat.compare_eq_lt]
  · have hne : a.points ≠ b.points := Nat.ne_of_gt h
    have : compare a.points b.points = Ordering.gt := Nat.compare_eq_gt.mpr h
    simp [this, Nat.lt_asymm h, hne]

theorem cmp_rank_eq_gt_iff (a b : Rank) :
    cmp_rank a b = Ordering.gt ↔
      b.points < a.points ∨ (a.points = b.points ∧ b.index < a.index) := by
  unfold cmp_rank
  rcases Nat.lt_trichotomy a.points b.points with h | h | h
  · have hne : a.points ≠ b.points := Nat.ne_of_lt h
    simp [Nat.compare_eq_lt.mpr h, Nat.lt_asymm h, hne]
  · simp [h, Nat.compare_eq_eq.mpr rfl, Nat.compare_eq_gt]
  · simp [Nat.compare_eq_gt.mpr h, h]

theorem rank_le_iff (a b : Rank × α) :
    rank_le a b ↔
      a.1.points < b.1.points ∨ (a.1.points = b.1.points ∧ a.1.index ≤ b.1.index) := by
  unfold rank_le
  rw [ne_eq, cmp_rank_eq_gt_iff]
  omega

instance rank_le_total : IsTotal (Rank × α) rank_le := by
  constructor
  intro a b
  rw [rank_le_iff, rank_le_iff]
  omega

instance rank_le_trans : IsTrans (Rank × α) rank_le := by
  constructor
  intro a b c
  rw [rank_le_iff, rank_le_iff, rank_le_iff]
  omega

theorem Rank.new_index (s p l i : Nat) : (Rank.new s p l i).index = i := rfl

theorem clamp_selection_filtered_items (frame : Frame) :
    (clamp_selection frame).filtered_items = frame.filtered_items := by
  unfold clamp_selection
  split <;> rfl

theorem filter_items_op_read_some (score : MatcherScore)
    (read_inner write_inner : AppInner) (frame : Frame)
    (h : read_inner.stack.getLast? = some frame) :
    filter_items_op score read_inner write_inner
      = filter_items_write write_inner frame.query
          (compute_filtered score frame.all_items frame.query
            ((read_inner.spells.lookup frame.spell_id).map Spell.search).join) := by
  unfold filter_items_op
  rw [h]

theorem filter_items_write_top_some (inner : AppInner) (query : String)
    (filtered : List Item) (frame : Frame) (h : inner.stack.getLast? = some frame) :
    filter_items_write inner query filtered
      = if frame.query = query then
          ({ inner with
             stack := modifyLast
               (fun f =>
                 { clamp_selection { f with filtered_items := filtered } with
                   is_filtering := false })
               inner.stack },
           true)
        else (inner, false) := by
  unfold filter_items_write
  rw [h]

theorem take_cap_length (l : List α) :
    (if l.length > 100 then l.take 100 else l).length ≤ 100 := by
  split
  next h => simp [List.length_take]
  next h => omega

theorem compute_filtered_length_le (score : MatcherScore) (all_items : List Item)
    (query : String) (config : Option SearchConfig) :
    (compute_filtered score all_items query config).length ≤ 100 := by
  unfold compute_filtered
  exact take_cap_length _

theorem splitTab_ne_nil (l : List Char) : ∃ g gs, splitTab l = g :: gs := by
  cases l with
  | nil => exact ⟨[], [], rfl⟩
  | cons c cs =>
    unfold splitTab
    by_cases hc : c = '\t'
    · exact ⟨[], splitTab cs, by rw [if_pos hc]⟩
    · rw [if_neg hc]
      cases hs : splitTab cs with
      | nil => exact ⟨[c], [], rfl⟩
      | cons f fs => exact ⟨c :: f, fs, rfl⟩

theorem splitTab_no_tab (l : List Char) (h : '\t' ∉ l) : splitTab l = [l] := by
  induction l with
  | nil => rfl
  | cons c cs ih =>
    have hc : ¬ c = '\t' := by intro he; exact h (by simp [he])
    have hcs : '\t' ∉ cs := by intro hm; exact h (by simp [hm])
    unfold splitTab
    rw [if_neg hc, ih hcs]

theorem splitTab_append_tab (a r : List Char) (h : '\t' ∉ a) :
    splitTab (a ++ '\t' :: r) = a :: splitTab r := by
  induction a with
  | nil => simp [splitTab]
  | cons c cs ih =>
    have hc : ¬ c = '\t' := by intro he; exact h (by simp [he])
    have hcs : '\t' ∉ cs := by intro hm; exact h (by simp [hm])
    rw [List.cons_append]
    conv_lhs => unfold splitTab
    rw [if_neg hc, ih hcs]

theorem joinTab_splitTab (l : List Char) : joinTab (splitTab l) = l := by
  induction l with
  | nil => rfl
  | cons c cs ih =>
    obtain ⟨g, gs, hg⟩ := splitTab_ne_nil cs
    rw [hg] at ih
    by_cases hc : c = '\t'
    · subst hc
      unfold splitTab
      rw [if_pos rfl, hg]
      show [] ++ '\t' :: joinTab (g :: gs) = '\t' :: cs
      rw [List.nil_append, ih]
    · unfold splitTab
      rw [if_neg hc, hg]
      cases gs with
      | nil => exact congrArg (c :: ·) ih
      | cons g2 gs2 =>
        show (c :: g) ++ '\t' :: joinTab (g2 :: gs2) = c :: cs
        rw [List.cons_append]
        exact congrArg (c :: ·) ih

theorem run_action_error_unchanged (render : Renderer) (frames : List Frame)
    (inner : AppInner) (action : Action) (st : AppInner) (e : String)
    (h : run_action render frames inner action = (st, Except.error e)) : st = inner := by
  cases action with
  | spell name condition spell =>
    rw [run_action] at h
    split at h
    · injection h with h1 _
      exact h1.symm
    · dsimp only at h
      split at h
      · injection h with h1 _
        exact h1.symm
      · split at h
        · injection h with h1 _
          exact h1.symm
        · injection h with _ h2
          exact absurd h2 (by simp)
  | cmd name condition cmd =>
    rw [run_action] at h
    split at h
    · injection h with h1 _
      exact h1.symm
    · split at h
      · injection h with h1 _
        exact h1.symm
      · injection h with _ h2
        exact absurd h2 (by simp)

theorem scan_actions_error_unchanged (render : Renderer) (frames : List Frame)
    (label : String) (inner : AppInner) :
    ∀ (acts : List Action) (st : AppInner) (e : String),
      scan_actions render frames label inner acts = (st, Except.error e) → st = inner := by
  intro acts
  induction acts with
  | nil =>
    intro st e h
    rw [scan_actions] at h
    injection h with h1 _
    exact h1.symm
  | cons action rest ih =>
    intro st e h
    rw [scan_actions] at h
    split at h
    · exact ih st e h
    · split at h
      · injection h with h1 _
        exact h1.symm
      · exact ih st e h
      · exact run_action_error_unchanged render frames inner action st e h

/-! ## Claim theorems -/

/-- C5 — Empty-query identity: for every item list and every
`SearchConfig` (any field, scheme and mode), ranking with the empty
query returns all items in their original input order, for every
behaviour of the external matcher. -/
theorem C5_empty_query_identity :
    ∀ (score : MatcherScore) (items : List String) (config : SearchConfig),
      Search.filter_items score items "" config = items := by
  intro score items config
  simp [Search.filter_items]

/-- C4 — Escape is two-stage: a non-empty query on the top frame is
cleared in place (selection reset, `filtered = all`, `is_filtering`
cleared, nothing popped, status and everything else untouched); an empty
query with more than one frame pops the top and clamps the new top's
selection with status `Ready`; an empty query at depth one changes
nothing. -/
theorem C4_escape_two_stage (inner : AppInner) :
    (∀ frame, inner.stack.getLast? = some frame → frame.query ≠ "" →
      (handle_escape inner).2 = EscapeResult.clearedQuery ∧
      (handle_escape inner).1.stack.length = inner.stack.length ∧
      (handle_escape inner).1.status = inner.status ∧
      (handle_escape inner).1.spells = inner.spells ∧
      (handle_escape inner).1.next_frame_id = inner.next_frame_id ∧
      (handle_escape inner).1.stack.getLast? = some
        { frame with
          query := ""
          selected_idx := 0
          filtered_items := frame.all_items
          is_filtering := false })
    ∧ (∀ frame, inner.stack.getLast? = some frame → frame.query = "" →
        1 < inner.stack.length →
      (handle_escape inner).2 = EscapeResult.poppedFrame ∧
      (handle_escape inner).1.status = AppStatus.ready ∧
      (handle_escape inner).1.stack.length = inner.stack.length - 1 ∧
      (handle_escape inner).1.stack.getLast?
        = inner.stack.dropLast.getLast?.map clamp_selection ∧
      (handle_escape inner).1.spells = inner.spells ∧
      (handle_escape inner).1.next_frame_id = inner.next_frame_id)
    ∧ (∀ frame, inner.stack.getLast? = some frame → frame.query = "" →
        inner.stack.length ≤ 1 →
      handle_escape inner = (inner, EscapeResult.noop)) := by
  refine ⟨?_, ?_, ?_⟩
  · intro frame h hq
    simp only [handle_escape, h, if_pos hq]
    simp [modifyLast_length, modifyLast_getLast?, h]
  · intro frame h hq hlen
    simp only [handle_escape, h, hq, ne_eq, not_true_eq_false, if_false,
      handle_escape_pop, if_pos hlen]
    simp [modifyLast_length, modifyLast_getLast?]
  · intro frame h hq hlen
    simp only [handle_escape, h, hq, ne_eq, not_true_eq_false, if_false,
      handle_escape_pop]
    rw [if_neg (Nat.not_lt.mpr hlen)]

/-- Witness for C4 at concrete states: depth 2 with query `"x"` on top
(stage one: cleared in place), depth 2 with empty query (stage two:
popped to depth 1), and depth 1 with empty query (no-op). -/
theorem C4_escape_two_stage_witness :
    (handle_escape ⟨AppStatus.ready, [],
        [⟨0, "quickspell", "", [], [], false, 0⟩, ⟨1, "s", "x", [], [], false, 0⟩], 2⟩).2
      = EscapeResult.clearedQuery ∧
    (handle_escape ⟨AppStatus.ready, [],
        [⟨0, "quickspell", "", [], [], false, 0⟩, ⟨1, "s", "", [], [], false, 0⟩], 2⟩).2
      = EscapeResult.poppedFrame ∧
    handle_escape ⟨AppStatus.ready, [], [⟨0, "quickspell", "", [], [], false, 0⟩], 1⟩
      = (⟨AppStatus.ready, [], [⟨0, "quickspell", "", [], [], false, 0⟩], 1⟩,
         EscapeResult.noop) :=
  ⟨((C4_escape_two_stage ⟨AppStatus.ready, [],
        [⟨0, "quickspell", "", [], [], false, 0⟩, ⟨1, "s", "x", [], [], false, 0⟩], 2⟩).1
      ⟨1, "s", "x", [], [], false, 0⟩ rfl (by decide)).1,
   ((C4_escape_two_stage ⟨AppStatus.ready, [],
        [⟨0, "quickspell", "", [], [], false, 0⟩, ⟨1, "s", "", [], [], false, 0⟩], 2⟩).2.1
      ⟨1, "s", "", [], [], false, 0⟩ rfl rfl (by decide)).1,
   (C4_escape_two_stage ⟨AppStatus.ready, [],
        [⟨0, "quickspell", "", [], [], false, 0⟩], 1⟩).2.2
      ⟨0, "quickspell", "", [], [], false, 0⟩ rfl rfl (by decide)⟩

/-- C1 — Re-filter staleness suppression: the write phase applies the
computed result only when the top frame's stored query still equals the
query the result was computed against; a rejected write leaves the state
entirely unchanged; and in particular the `set-query("a")`,
`set-query("b")`, write-back-of-the-"a"-result interleaving is rejected
with `applied = false` for every starting state and matcher. -/
theorem C1_refilter_staleness :
    (∀ (inner : AppInner) (q : String) (filtered : List Item) (frame : Frame),
      inner.stack.getLast? = some frame → frame.query ≠ q →
      filter_items_write inner q filtered = (inner, false))
    ∧ (∀ (inner : AppInner) (q : String) (filtered : List Item),
      (filter_items_write inner q filtered).2 = false →
      (filter_items_write inner q filtered).1 = inner)
    ∧ (∀ (inner : AppInner) (q : String) (filtered : List Item),
      (filter_items_write inner q filtered).2 = true →
      ∃ frame, inner.stack.getLast? = some frame ∧ frame.query = q)
    ∧ (∀ (score : MatcherScore) (st : AppInner),
      filter_items_op score (set_query st "a") (set_query (set_query st "a") "b")
        = (set_query (set_query st "a") "b", false)) := by
  refine ⟨?_, ?_, ?_, ?_⟩
  · intro inner q filtered frame h hq
    simp only [filter_items_write, h, if_neg hq]
  · intro inner q filtered h
    unfold filter_items_write at h ⊢
    cases hl : inner.stack.getLast? with
    | none => rfl
    | some frame =>
      simp only [hl] at h ⊢
      by_cases hq : frame.query = q
      · simp [hq] at h
      · simp [hq]
  · intro inner q filtered h
    unfold filter_items_write at h
    cases hl : inner.stack.getLast? with
    | none => simp [hl] at h
    | some frame =>
      simp only [hl] at h
      by_cases hq : frame.query = q
      · exact ⟨frame, rfl, hq⟩
      · simp [hq] at h
  · intro score st
    unfold filter_items_op
    cases hl : st.stack.getLast? with
    | none =>
      have hnil : st.stack = [] := List.getLast?_eq_none_iff.mp hl
      simp [set_query, hnil, modifyLast]
    | some fr =>
      have h1 : (set_query st "a").stack.getLast?
          = some { fr with query := "a", selected_idx := 0, is_filtering := true } := by
        simp [set_query, modifyLast_getLast?, hl]
      have h2 : (set_query (set_query st "a") "b").stack.getLast?
          = some { fr with query := "b", selected_idx := 0, is_filtering := true } := by
        simp only [set_query, modifyLast_getLast?, hl, Option.map_some]
        rfl
      simp only [h1]
      unfold filter_items_write
      simp only [h2]
      rw [if_neg (by simp)]

/-- Witness for C1 at a concrete state: one frame whose stored query is
`"b"` rejects a write-back computed for `"a"`, and the full
`set-query("a")`/`set-query("b")` interleaving is rejected. -/
theorem C1_refilter_staleness_witness :
    filter_items_write
        ⟨AppStatus.ready, [], [⟨0, "quickspell", "b", [], [], true, 0⟩], 1⟩ "a" []
      = (⟨AppStatus.ready, [], [⟨0, "quickspell", "b", [], [], true, 0⟩], 1⟩, false) ∧
    filter_items_op (fun _ _ _ _ => some 1)
        (set_query ⟨AppStatus.ready, [], [⟨0, "quickspell", "", [], [], false, 0⟩], 1⟩ "a")
        (set_query
          (set_query ⟨AppStatus.ready, [], [⟨0, "quickspell", "", [], [], false, 0⟩], 1⟩ "a")
          "b")
      = (set_query
          (set_query ⟨AppStatus.ready, [], [⟨0, "quickspell", "", [], [], false, 0⟩], 1⟩ "a")
          "b", false) :=
  ⟨C1_refilter_staleness.1 _ "a" [] ⟨0, "quickspell", "b", [], [], true, 0⟩ rfl (by decide),
   C1_refilter_staleness.2.2.2 (fun _ _ _ _ => some 1) _⟩

/-- C2 counterexample — the ≤100 frame-size invariant fails on a
reachable state: `begin` with one definition, then `finish-loading` with
101 provider items installs all 101 into the top frame's
`filtered-items` (no cap is applied outside the re-filter write-back). -/
theorem C2_frame_cap_counterexample :
    (begin_loading_with_spells AppState.new
        [("quickspell",
          ⟨"QuickSpell", "quickspell", true, "prov", none, none, none, none, []⟩)]).map
      (fun st =>
        ((finish_loading_write st (List.replicate 101 ⟨"FILE", "f", "d"⟩) 0).stack.getLast?).map
          (fun f => f.filtered_items.length))
      = Except.ok (some 101) := by
  rfl

/-- C2 (amended) — the 100-entry cap is enforced by the re-filter
operation alone: its compute phase always produces at most 100 entries,
and an applied re-filter write-back leaves the top frame with at most
100 `filtered-items`. (Other operations — finish-loading, streaming
flushes, escape's `filtered = all` restore — install uncapped lists.) -/
theorem C2_refilter_cap :
    (∀ (score : MatcherScore) (all_items : List Item) (query : String)
        (config : Option SearchConfig),
      (compute_filtered score all_items query config).length ≤ 100)
    ∧ (∀ (score : MatcherScore) (read_inner write_inner : AppInner) (frame : Frame),
      (filter_items_op score read_inner write_inner).2 = true →
      (filter_items_op score read_inner write_inner).1.stack.getLast? = some frame →
      frame.filtered_items.length ≤ 100) := by
  refine ⟨compute_filtered_length_le, ?_⟩
  intro score read_inner write_inner frame happ htop
  cases hr : read_inner.stack.getLast? with
  | none => unfold filter_items_op at happ; rw [hr] at happ; simp at happ
  | some rframe =>
    rw [filter_items_op_read_some score read_inner write_inner rframe hr] at happ htop
    cases hw : write_inner.stack.getLast? with
    | none =>
      unfold filter_items_write at happ
      rw [hw] at happ
      simp at happ
    | some wframe =>
      rw [filter_items_write_top_some _ _ _ _ hw] at happ htop
      by_cases hq : wframe.query = rframe.query
      · rw [if_pos hq] at htop
        simp only [modifyLast_getLast?, hw, Option.map_some', Option.some.injEq] at htop
        rw [← htop]
        simpa [clamp_selection_filtered_items] using
          compute_filtered_length_le score rframe.all_items rframe.query
            ((read_inner.spells.lookup rframe.spell_id).map Spell.search).join
      · rw [if_neg hq] at happ
        simp at happ

/-- Witness for C2 (amended) at a concrete applied re-filter: a single
frame with an empty query applies the write-back and keeps one item. -/
theorem C2_refilter_cap_witness :
    (compute_filtered (fun _ _ _ _ => some 1) [⟨"FILE", "f", "d"⟩] "" none).length ≤ 100 ∧
    (filter_items_op (fun _ _ _ _ => some 1)
        ⟨AppStatus.ready, [], [⟨0, "quickspell", "", [⟨"FILE", "f", "d"⟩],
          [⟨"FILE", "f", "d"⟩], false, 0⟩], 1⟩
        ⟨AppStatus.ready, [], [⟨0, "quickspell", "", [⟨"FILE", "f", "d"⟩],
          [⟨"FILE", "f", "d"⟩], false, 0⟩], 1⟩).2 = true ∧
    (⟨0, "quickspell", "", [⟨"FILE", "f", "d"⟩], [⟨"FILE", "f", "d"⟩], false,
      0⟩ : Frame).filtered_items.length ≤ 100 :=
  ⟨C2_refilter_cap.1 (fun _ _ _ _ => some 1) [⟨"FILE", "f", "d"⟩] "" none,
   by decide,
   C2_refilter_cap.2 (fun _ _ _ _ => some 1)
     ⟨AppStatus.ready, [], [⟨0, "quickspell", "", [⟨"FILE", "f", "d"⟩],
       [⟨"FILE", "f", "d"⟩], false, 0⟩], 1⟩
     ⟨AppStatus.ready, [], [⟨0, "quickspell", "", [⟨"FILE", "f", "d"⟩],
       [⟨"FILE", "f", "d"⟩], false, 0⟩], 1⟩
     ⟨0, "quickspell", "", [⟨"FILE", "f", "d"⟩], [⟨"FILE", "f", "d"⟩], false, 0⟩
     (by decide) (by decide)⟩

/-- C3 counterexample — with the Plain scheme, two candidates the
matcher scores equally do not keep their original input order: the
shorter haystack `"a"` overtakes the earlier, longer `"aa"`, because
`Rank::new` packs the haystack length into the sort key for every
scheme. -/
theorem C3_plain_ordering_counterexample :
    Search.filter_items (fun _ _ _ _ => some 5) ["aa", "a"] "a"
        ⟨1, SearchScheme.plain, SearchMode.fuzzy⟩
      = ["a", "aa"] ∧ (["a", "aa"] : List String) ≠ ["aa", "a"] := by
  constructor
  · decide
  · decide

/-- C3 (amended) — Plain-scheme ordering: candidates are ordered by
descending raw score; equal raw score is ordered by ascending haystack
length; only candidates equal in both score and length keep their
original input order (metrics saturate at 65535). The output of
`filter_items` on a non-empty query is the rank-sorted survivor list. -/
theorem C3_plain_ordering :
    (∀ s₁ s₂ l₁ l₂ i₁ i₂ : Nat, s₁ ≤ 65535 → s₂ ≤ 65535 → l₁ ≤ 65535 → l₂ ≤ 65535 →
      (cmp_rank (Rank.new s₁ 0 l₁ i₁) (Rank.new s₂ 0 l₂ i₂) = Ordering.lt ↔
        (s₂ < s₁ ∨ (s₁ = s₂ ∧ (l₁ < l₂ ∨ (l₁ = l₂ ∧ i₁ < i₂))))))
    ∧ (∀ (score : MatcherScore) (items : List String) (query : String)
        (cfg : SearchConfig), query ≠ "" →
      Search.filter_items score items query cfg
          = (sorted_candidates id score items query cfg).map Prod.snd
        ∧ (sorted_candidates id score items query cfg).Sorted rank_le) := by
  constructor
  · intro s₁ s₂ l₁ l₂ i₁ i₂ hs₁ hs₂ hl₁ hl₂
    rw [cmp_rank_eq_lt_iff, Rank.points_decode, Rank.points_decode,
      Rank.new_index, Rank.new_index,
      Nat.min_eq_left hs₁, Nat.min_eq_left hs₂, Nat.min_eq_left hl₁, Nat.min_eq_left hl₂]
    norm_num
    omega
  · intro score items query cfg hq
    refine ⟨?_, ?_⟩
    · simp [Search.filter_items, hq]
    · exact List.sorted_insertionSort rank_le _

/-- Witness for C3 (amended): equal scores 5 with lengths 1 < 2 compare
`lt`, and the concrete Plain run factors through the sorted survivors. -/
theorem C3_plain_ordering_witness :
    cmp_rank (Rank.new 5 0 1 0) (Rank.new 5 0 2 1) = Ordering.lt ∧
    Search.filter_items (fun _ _ _ _ => some 5) ["aa", "a"] "a"
        ⟨1, SearchScheme.plain, SearchMode.fuzzy⟩
      = (sorted_candidates id (fun _ _ _ _ => some 5) ["aa", "a"] "a"
          ⟨1, SearchScheme.plain, SearchMode.fuzzy⟩).map Prod.snd ∧
    (sorted_candidates id (fun _ _ _ _ => some 5) ["aa", "a"] "a"
        ⟨1, SearchScheme.plain, SearchMode.fuzzy⟩).Sorted rank_le :=
  ⟨(C3_plain_ordering.1 5 5 1 2 0 1 (by decide) (by decide) (by decide) (by decide)).mpr
     (by decide),
   (C3_plain_ordering.2 (fun _ _ _ _ => some 5) ["aa", "a"] "a"
     ⟨1, SearchScheme.plain, SearchMode.fuzzy⟩ (by decide)).1,
   (C3_plain_ordering.2 (fun _ _ _ _ => some 5) ["aa", "a"] "a"
     ⟨1, SearchScheme.plain, SearchMode.fuzzy⟩ (by decide)).2⟩

/-- C6 — Path-scheme tie-break: whenever the external matcher assigns
the two candidates' third fields the same raw score, the directory entry
(match beginning in the basename, trailing separator ignored — pathname
distance 0) ranks ahead of the longer, non-basename-anchored match
(saturated pathname penalty); and candidates with equal raw score and
equal pathname distance order by shorter haystack, then input index. -/
theorem C6_path_tiebreak :
    (∀ (score : MatcherScore) (s : Nat),
      score AtomKind.fuzzy true "repos" ("/a/b/repos/" : String).data = some s →
      score AtomKind.fuzzy true "repos" ("/a/b/repos-old/readme" : String).data = some s →
      Search.filter_items score
          ["DIR\trepos\t/a/b/repos/", "FILE\tx\t/a/b/repos-old/readme"]
          "repos" ⟨3, SearchScheme.path, SearchMode.fuzzy⟩
        = ["DIR\trepos\t/a/b/repos/", "FILE\tx\t/a/b/repos-old/readme"])
    ∧ (∀ s p l₁ l₂ i₁ i₂ : Nat, p ≤ 65535 → l₁ ≤ 65535 → l₂ ≤ 65535 →
      (cmp_rank (Rank.new s p l₁ i₁) (Rank.new s p l₂ i₂) = Ordering.lt ↔
        (l₁ < l₂ ∨ (l₁ = l₂ ∧ i₁ < i₂)))) := by
  constructor
  · intro score s h1 h2
    have hd : rank_candidate id score "repos" ⟨3, SearchScheme.path, SearchMode.fuzzy⟩ 0
        "DIR\trepos\t/a/b/repos/"
        = some (Rank.new s 0 11 0, "DIR\trepos\t/a/b/repos/") := by
      show (match score AtomKind.fuzzy true "repos" ("/a/b/repos/" : String).data with
            | none => none
            | some sc => some (Rank.new sc 0 11 0, "DIR\trepos\t/a/b/repos/"))
          = some (Rank.new s 0 11 0, "DIR\trepos\t/a/b/repos/")
      rw [h1]
    have hf : rank_candidate id score "repos" ⟨3, SearchScheme.path, SearchMode.fuzzy⟩ 1
        "FILE\tx\t/a/b/repos-old/readme"
        = some (Rank.new s 65535 21 1, "FILE\tx\t/a/b/repos-old/readme") := by
      show (match score AtomKind.fuzzy true "repos" ("/a/b/repos-old/readme" : String).data with
            | none => none
            | some sc => some (Rank.new sc 65535 21 1, "FILE\tx\t/a/b/repos-old/readme"))
          = some (Rank.new s 65535 21 1, "FILE\tx\t/a/b/repos-old/readme")
      rw [h2]
    have hranked : ranked_candidates id score
        ["DIR\trepos\t/a/b/repos/", "FILE\tx\t/a/b/repos-old/readme"] "repos"
        ⟨3, SearchScheme.path, SearchMode.fuzzy⟩
        = [(Rank.new s 0 11 0, "DIR\trepos\t/a/b/repos/"),
           (Rank.new s 65535 21 1, "FILE\tx\t/a/b/repos-old/readme")] := by
      unfold ranked_candidates
      rw [show (["DIR\trepos\t/a/b/repos/", "FILE\tx\t/a/b/repos-old/readme"] : List String).enum
          = [(0, "DIR\trepos\t/a/b/repos/"), (1, "FILE\tx\t/a/b/repos-old/readme")] from rfl]
      rw [List.map_cons, List.map_cons, List.map_nil, hd, hf]
      rfl
    have hlt : cmp_rank (Rank.new s 0 11 0) (Rank.new s 65535 21 1) = Ordering.lt := by
      rw [cmp_rank_eq_lt_iff]
      left
      rw [Rank.points_decode, Rank.points_decode]
      rw [show (2 : Nat) ^ 48 = 281474976710656 from rfl,
        show (2 : Nat) ^ 32 = 4294967296 from rfl,
        show (2 : Nat) ^ 16 = 65536 from rfl]
      omega
    have hle : rank_le (Rank.new s 0 11 0, "DIR\trepos\t/a/b/repos/")
        ((Rank.new s 65535 21 1, "FILE\tx\t/a/b/repos-old/readme") : Rank × String) := by
      unfold rank_le
      rw [hlt]
      decide
    have hsorted : sorted_candidates id score
        ["DIR\trepos\t/a/b/repos/", "FILE\tx\t/a/b/repos-old/readme"] "repos"
        ⟨3, SearchScheme.path, SearchMode.fuzzy⟩
        = [(Rank.new s 0 11 0, "DIR\trepos\t/a/b/repos/"),
           (Rank.new s 65535 21 1, "FILE\tx\t/a/b/repos-old/readme")] := by
      unfold sorted_candidates
      rw [hranked]
      simp only [List.insertionSort, List.orderedInsert]
      rw [if_pos hle]
    unfold Search.filter_items
    rw [if_neg (by decide : ¬("repos" : String) = "")]
    rw [hsorted]
    rfl
  · intro s p l₁ l₂ i₁ i₂ hp hl₁ hl₂
    rw [cmp_rank_eq_lt_iff, Rank.points_decode, Rank.points_decode,
      Rank.new_index, Rank.new_index,
      Nat.min_eq_left hp, Nat.min_eq_left hl₁, Nat.min_eq_left hl₂]
    rw [show (2 : Nat) ^ 48 = 281474976710656 from rfl,
      show (2 : Nat) ^ 32 = 4294967296 from rfl,
      show (2 : Nat) ^ 16 = 65536 from rfl]
    omega

/-- Witness for C6: a constant matcher score realises the equal-score
hypotheses and ranks the directory entry first; lengths 5 < 7 at equal
score and pathname compare `lt`. -/
theorem C6_path_tiebreak_witness :
    Search.filter_items (fun _ _ _ _ => some 7)
        ["DIR\trepos\t/a/b/repos/", "FILE\tx\t/a/b/repos-old/readme"]
        "repos" ⟨3, SearchScheme.path, SearchMode.fuzzy⟩
      = ["DIR\trepos\t/a/b/repos/", "FILE\tx\t/a/b/repos-old/readme"] ∧
    cmp_rank (Rank.new 9 3 5 0) (Rank.new 9 3 7 1) = Ordering.lt :=
  ⟨C6_path_tiebreak.1 (fun _ _ _ _ => some 7) 7 rfl rfl,
   (C6_path_tiebreak.2 9 3 5 7 0 1 (by decide) (by decide) (by decide)).mpr (by decide)⟩

/-- C7 — Item wire round-trip: a line of exactly three tab-separated
(tab-free) fields parses into an `Item` and serialises back to the
identical string; a line with fewer than three tab-separated fields does
not parse (skip, not a fatal error). -/
theorem C7_item_roundtrip :
    (∀ (a b c : List Char), '\t' ∉ a → '\t' ∉ b → '\t' ∉ c →
      Item.from_line ⟨a ++ '\t' :: (b ++ '\t' :: c)⟩ = some ⟨⟨a⟩, ⟨b⟩, ⟨c⟩⟩ ∧
      Item.raw ⟨⟨a⟩, ⟨b⟩, ⟨c⟩⟩ = ⟨a ++ '\t' :: (b ++ '\t' :: c)⟩)
    ∧ (∀ line : String, (splitTab line.data).length < 3 →
      Item.from_line line = none) := by
  constructor
  · intro a b c ha hb hc
    have hs : splitTab (String.mk (a ++ '\t' :: (b ++ '\t' :: c))).data = [a, b, c] := by
      show splitTab (a ++ '\t' :: (b ++ '\t' :: c)) = [a, b, c]
      rw [splitTab_append_tab a _ ha, splitTab_append_tab b _ hb, splitTab_no_tab c hc]
    constructor
    · unfold Item.from_line
      rw [hs]
    · show String.mk ((((a ++ ['\t']) ++ b) ++ ['\t']) ++ c)
        = String.mk (a ++ '\t' :: (b ++ '\t' :: c))
      exact congrArg String.mk (by simp)
  · intro line hlen
    unfold Item.from_line
    cases hs : splitTab line.data with
    | nil => rfl
    | cons t rest =>
      cases rest with
      | nil => rfl
      | cons n rest2 =>
        cases rest2 with
        | nil => rfl
        | cons d rest3 =>
          rw [hs] at hlen
          simp at hlen
          omega

/-- Witness for C7 at the spec's concrete line
`"FILE\tnotes.txt\t/x/notes.txt"`, plus a two-field line that is
rejected. -/
theorem C7_item_roundtrip_witness :
    Item.from_line "FILE\tnotes.txt\t/x/notes.txt"
        = some ⟨"FILE", "notes.txt", "/x/notes.txt"⟩ ∧
    Item.raw ⟨"FILE", "notes.txt", "/x/notes.txt"⟩ = "FILE\tnotes.txt\t/x/notes.txt" ∧
    Item.from_line "a\tb" = none :=
  ⟨(C7_item_roundtrip.1 "FILE".data "notes.txt".data "/x/notes.txt".data
      (by decide) (by decide) (by decide)).1,
   (C7_item_roundtrip.1 "FILE".data "notes.txt".data "/x/notes.txt".data
      (by decide) (by decide) (by decide)).2,
   C7_item_roundtrip.2 "a\tb" (by decide)⟩

/-- C9 — Over-long lines parse by truncation: a line with more than
three tab-separated fields parses into an `Item` from the first three
fields alone, and serialising that `Item` back does not reproduce the
original line. -/
theorem C9_overlong_truncation :
    ∀ (line : String) (f₀ f₁ f₂ f₃ : List Char) (fs : List (List Char)),
      splitTab line.data = f₀ :: f₁ :: f₂ :: f₃ :: fs →
      Item.from_line line = some ⟨⟨f₀⟩, ⟨f₁⟩, ⟨f₂⟩⟩ ∧
      Item.raw ⟨⟨f₀⟩, ⟨f₁⟩, ⟨f₂⟩⟩ ≠ line := by
  intro line f₀ f₁ f₂ f₃ fs h
  constructor
  · unfold Item.from_line
    rw [h]
  · intro heq
    have hjoin : joinTab (splitTab line.data) = line.data := joinTab_splitTab _
    rw [h] at hjoin
    have hlen := congrArg List.length hjoin
    have hexp : (joinTab (f₀ :: f₁ :: f₂ :: f₃ :: fs)).length
        = f₀.length + 1 + (f₁.length + 1 + (f₂.length + 1 + (joinTab (f₃ :: fs)).length)) := by
      show (f₀ ++ '\t' :: (f₁ ++ '\t' :: (f₂ ++ '\t' :: joinTab (f₃ :: fs)))).length = _
      simp [List.length_append]
      omega
    have hrawlen : (Item.raw ⟨⟨f₀⟩, ⟨f₁⟩, ⟨f₂⟩⟩).data.length
        = f₀.length + f₁.length + f₂.length + 2 := by
      show ((((f₀ ++ ['\t']) ++ f₁) ++ ['\t']) ++ f₂).length = _
      simp [List.length_append]
      omega
    have hceq := congrArg (fun s => s.data.length) heq
    simp only at hceq
    omega

/-- Witness for C9 at the four-field line `"a\tb\tc\td"`: it parses to
the first three fields, whose serialisation differs from the line. -/
theorem C9_overlong_truncation_witness :
    Item.from_line "a\tb\tc\td" = some ⟨"a", "b", "c"⟩ ∧
    Item.raw ⟨"a", "b", "c"⟩ ≠ "a\tb\tc\td" :=
  C9_overlong_truncation "a\tb\tc\td" "a".data "b".data "c".data "d".data [] (by decide)

/-- C8 — PushSpell atomicity on unknown target: a matched, passing
`PushSpell` action whose rendered (trimmed) target id is not among the
loaded definitions makes the scan return the "not found" error with the
state untouched; and more generally, any erroring `invoke_action` leaves
the navigation state — stack, status and frame-id counter — entirely
unchanged. -/
theorem C8_pushspell_unknown_target :
    (∀ (inner : AppInner) (render : Renderer) (label : String)
        (name cond : Option String) (tmpl : String) (rest : List Action) (t : String),
      name.getD "MAIN" = label →
      condition_passes render cond inner.stack = Except.ok true →
      render tmpl inner.stack = Except.ok t →
      trim_str t ≠ "" →
      inner.spells.lookup (trim_str t) = none →
      scan_actions render inner.stack label inner (Action.spell name cond tmpl :: rest)
        = (inner, Except.error ("spell " ++ trim_str t ++ " not found")))
    ∧ (∀ (render : Renderer) (inner : AppInner) (label : String)
        (st : AppInner) (e : String),
      invoke_action render inner label = (st, Except.error e) → st = inner) := by
  constructor
  · intro inner render label name cond tmpl rest t hname hcond hrender htrim hlookup
    rw [scan_actions]
    simp only [action_name, action_condition]
    rw [if_neg (not_not_intro hname), hcond]
    show run_action render inner.stack inner (Action.spell name cond tmpl)
      = (inner, Except.error ("spell " ++ trim_str t ++ " not found"))
    rw [run_action, hrender]
    dsimp only
    rw [if_neg htrim, hlookup]
    rw [if_pos (show (none : Option Spell).isNone = true from rfl)]
  · intro render inner label st e h
    rw [invoke_action] at h
    split at h
    · injection h with h1 _
      exact h1.symm
    · exact scan_actions_error_unchanged render inner.stack label inner _ st e h

/-- Witness for C8: a loaded state whose only action is
`PushSpell "missing"` with an identity renderer errors with
"spell missing not found", and the erroring `invoke_action` leaves the
state unchanged. -/
theorem C8_pushspell_unknown_target_witness :
    scan_actions (fun t _ => Except.ok t)
        [⟨0, "quickspell", "", [], [], false, 0⟩] "MAIN"
        ⟨AppStatus.ready,
          [("quickspell", ⟨"QuickSpell", "quickspell", true, "prov", none, none, none,
            none, [Action.spell none none "missing"]⟩)],
          [⟨0, "quickspell", "", [], [], false, 0⟩], 1⟩
        [Action.spell none none "missing"]
      = (⟨AppStatus.ready,
          [("quickspell", ⟨"QuickSpell", "quickspell", true, "prov", none, none, none,
            none, [Action.spell none none "missing"]⟩)],
          [⟨0, "quickspell", "", [], [], false, 0⟩], 1⟩,
         Except.error "spell missing not found") ∧
    invoke_action (fun t _ => Except.ok t)
        ⟨AppStatus.ready,
          [("quickspell", ⟨"QuickSpell", "quickspell", true, "prov", none, none, none,
            none, [Action.spell none none "missing"]⟩)],
          [⟨0, "quickspell", "", [], [], false, 0⟩], 1⟩ "MAIN"
      = (⟨AppStatus.ready,
          [("quickspell", ⟨"QuickSpell", "quickspell", true, "prov", none, none, none,
            none, [Action.spell none none "missing"]⟩)],
          [⟨0, "quickspell", "", [], [], false, 0⟩], 1⟩,
         Except.error "spell missing not found") :=
  ⟨C8_pushspell_unknown_target.1
     ⟨AppStatus.ready,
       [("quickspell", ⟨"QuickSpell", "quickspell", true, "prov", none, none, none,
         none, [Action.spell none none "missing"]⟩)],
       [⟨0, "quickspell", "", [], [], false, 0⟩], 1⟩
     (fun t _ => Except.ok t) "MAIN" none none "missing" [] "missing"
     rfl rfl rfl (by decide) rfl,
   rfl⟩

/-- C10 — Duplicate definition ids shadow in templates: when frames
with the same definition id sit on the stack, `build_context` exposes
exactly the topmost (last-inserted) such frame's context — query,
spellId and selection — under that id. -/
theorem C10_duplicate_id_shadowing :
    ∀ (pre post : List Frame) (f : Frame),
      (∀ g ∈ post, g.spell_id ≠ f.spell_id) →
      build_context (pre ++ f :: post) f.spell_id = some (frame_context f) := by
  intro pre post f h
  unfold build_context
  rw [List.foldl_append, List.foldl_cons]
  have haux : ∀ (post' : List Frame) (ctx : String → Option FrameContext),
      (∀ g ∈ post', g.spell_id ≠ f.spell_id) →
      (post'.foldl insert_frame_context ctx) f.spell_id = ctx f.spell_id := by
    intro post'
    induction post' with
    | nil => intro ctx _; rfl
    | cons g gs ih =>
      intro ctx hg
      rw [List.foldl_cons, ih _ (fun x hx => hg x (List.mem_cons_of_mem g hx))]
      unfold insert_frame_context
      rw [if_neg]
      intro hk
      exact absurd hk.symm (hg g (List.mem_cons_self g gs))
  rw [haux post _ h]
  unfold insert_frame_context
  rw [if_pos rfl]

/-- Witness for C10: two frames sharing id `"x"`; the context exposes
the top frame's query `"top"`, not the bottom frame's `"bottom"`. -/
theorem C10_duplicate_id_shadowing_witness :
    build_context [⟨0, "x", "bottom", [], [], false, 0⟩,
        ⟨1, "x", "top", [], [], false, 0⟩] "x"
      = some (frame_context ⟨1, "x", "top", [], [], false, 0⟩) ∧
    (frame_context ⟨1, "x", "top", [], [], false, 0⟩).query = "top" ∧
    (frame_context ⟨0, "x", "bottom", [], [], false, 0⟩).query = "bottom" :=
  ⟨C10_duplicate_id_shadowing [⟨0, "x", "bottom", [], [], false, 0⟩] []
     ⟨1, "x", "top", [], [], false, 0⟩ (by simp),
   rfl, rfl⟩

end Quickspell
